import Mathlib

/-!
Shallow embedding of `src/jeopardy.js` (a browser Jeopardy board game) and
verification of its specification's claims.

The embedded core consists of:
* the per-clue reveal state machine (`handleClick`), and
* the category/clue acquisition pipeline (`getCategory`, `setupAndStart`,
  together with the start-button click handler and `showLoadingView`).

DOM manipulation (`fillTable`, spinner toggling, jQuery wiring) is not part of
the modelled core: the embedding keeps only its effect on the `categories`
data structure and the (text, style) output that a reveal emits to the
rendering surface.

JavaScript conventions used by the embedding:
* `Math.floor(Math.random() * len)` is an arbitrary value in `[0, len)`; it is
  modelled by an oracle `g : Nat → Nat` taken modulo the current length.
* accessing a property of `undefined` throws a `TypeError`; remote (axios)
  rejections propagate through `await`.  Both are modelled by `JsThrow`.
* a missing object property (`clue.showing` on a freshly built clue) is
  `undefined`, which is falsy exactly like the documented `showing: null`;
  the embedding uses the single constructor `Showing.null` for that state.
-/

namespace Jeopardy

/-- A clue record as returned by the remote clue endpoint: at least a question
and an answer (already stringified, as the source interpolates each field into
a template string), plus arbitrary further fields that the source never
reads. -/
structure SourceClue where
  question : String
  answer : String
  extra : List (String × String)
deriving Repr, DecidableEq

/-- The `showing` property of a clue.  `null` covers both the documented
`showing: null` and the absent property (`undefined`) on clues built by
`getCategory`; both are falsy in the `if (clue.showing)` test. -/
inductive Showing where
  | null
  | question
  | answer
deriving Repr, DecidableEq

/-- A clue of the in-memory board: exactly the fields the source pushes in
`getCategory` plus the `showing` state read and written by `handleClick`. -/
structure Clue where
  question : String
  answer : String
  showing : Showing
deriving Repr, DecidableEq

/-- One entry of the global `categories` array: `{ title, clues }`. -/
structure Category where
  title : String
  clues : List Clue
deriving Repr, DecidableEq

/-- A rejected remote call (axios promise rejection). -/
inductive TransportError where
  | failure (msg : String)
deriving Repr, DecidableEq

/-- An exception propagating out of one of the modelled functions: either the
`TypeError` JavaScript throws on a property access of `undefined`, or a
remote rejection propagating through an `await`. -/
inductive JsThrow where
  | typeError
  | transport (e : TransportError)
deriving Repr, DecidableEq

/-- Numeric progress of the reveal state machine, used to state that the
state never decreases. -/
def Showing.rank : Showing → Nat
  | .null => 0
  | .question => 1
  | .answer => 2

/-- Removal of the first occurrence of character `c`, the effect of the
JavaScript `str.replace(pattern, "")` with a plain string pattern (which
replaces only the first occurrence). -/
def removeFirst (c : Char) : List Char → List Char
  | [] => []
  | x :: xs => if x = c then xs else x :: removeFirst c xs

/-- `clue.answer.replace("\\", "")` from `handleClick`: the first literal
backslash of the answer is removed. -/
def removeFirstBackslash (s : String) : String :=
  String.mk (removeFirst '\\' s.data)

/-- The style updates `handleClick` writes to the clicked cell. -/
structure StyleHint where
  fontSize : String
  color : Option String
  webkitTextStroke : Option String
deriving Repr, DecidableEq

/-- Style written when the question is shown (`target.style.fontSize = '1vh'`,
white text, no stroke). -/
def questionStyle : StyleHint :=
  { fontSize := "1vh", color := some "white", webkitTextStroke := some "0" }

/-- Style written when the answer is shown (`target.style.fontSize = '1.5vh'`,
no other property touched). -/
def answerStyle : StyleHint :=
  { fontSize := "1.5vh", color := none, webkitTextStroke := none }

/-- The per-clue core of `handleClick`: given the addressed clue, the updated
clue together with the `(innerHTML, style)` pair written to the cell (`none`
when the click is ignored).  Mirrors the source's branching on
`clue.showing`. -/
def handleClickClue (clue : Clue) : Clue × Option (String × StyleHint) :=
  match clue.showing with
  | .question =>
      ({ question := clue.question, answer := clue.answer, showing := .answer },
       some (removeFirstBackslash clue.answer, answerStyle))
  | .answer => (clue, none)
  | .null =>
      ({ question := clue.question, answer := clue.answer, showing := .question },
       some (clue.question, questionStyle))

/-- `handleClick`, addressed by the `(categoryIndex, clueIndex)` pair encoded
in the cell id `"${cat}-${clu}"` that `fillTable` assigns.  `categories[cat]`
for an out-of-range index is `undefined`, so the subsequent `.clues` access
throws a `TypeError`; likewise `clue.showing` throws when the clue index is
out of range.  On success it returns the updated `categories` array and the
emitted `(text, style)` pair. -/
def handleClick (categories : List Category) (cat clu : Nat) :
    Except JsThrow (List Category × Option (String × StyleHint)) :=
  match categories[cat]? with
  | none => .error .typeError
  | some category =>
    match category.clues[clu]? with
    | none => .error .typeError
    | some clue =>
      let r := handleClickClue clue
      .ok (categories.set cat { title := category.title, clues := category.clues.set clu r.1 },
           r.2)

/-- The `while (category.data.length > 5)` loop of `getCategory`: repeatedly
splice out the element at index `Math.floor(Math.random() * length)` until at
most 5 remain.  The random draws are the oracle values `g k` reduced modulo
the current length, matching the range `[0, length)` of the source
expression; `k` counts the iterations. -/
def reduceClues (g : Nat → Nat) (k : Nat) (data : List SourceClue) : List SourceClue :=
  if h : 5 < data.length then
    reduceClues g (k + 1) (data.eraseIdx (g k % data.length))
  else data
termination_by data.length
decreasing_by
  have hlen : g k % data.length < data.length :=
    Nat.mod_lt _ (Nat.lt_of_lt_of_le (Nat.succ_pos 4) (Nat.le_of_lt h))
  simpa [List.length_eraseIdx_of_lt hlen] using
    Nat.sub_lt (Nat.lt_of_lt_of_le (Nat.succ_pos 4) (Nat.le_of_lt h)) Nat.one_pos

/-- Projection of a source clue into the pushed object
`{ question: ..., answer: ... }`.  The pushed object has no `showing`
property, i.e. `showing` is the falsy `undefined`/`null` state. -/
def projectClue (s : SourceClue) : Clue :=
  { question := s.question, answer := s.answer, showing := .null }

/-- `getCategory` after its `await` has resolved with the clue list `data`:
reject (`return false`, modelled as `none`) when fewer than 5 clues came
back, otherwise reduce to 5 clues at random and push the projections of
`data[0] .. data[4]` into the clue array.  The `getD` default stands for the
unreachable `undefined` read (`reduceClues` leaves exactly 5 elements, see
`reduceClues_length_of_five_le`). -/
def getCategory (g : Nat → Nat) (catTitle : String) (data : List SourceClue) :
    Option Category :=
  if data.length < 5 then none
  else
    let reduced := reduceClues g 0 data
    some { title := catTitle,
           clues := (List.range 5).map fun i =>
             projectClue (reduced.getD i { question := "", answer := "", extra := [] }) }

/-- One candidate of the `categoryResponse` array, bundled with the outcome of
the clue fetch for its id (`axios.get('.../clues?category=...')`, possibly a
rejection) and the random oracle the splice loop of its `getCategory` call
consumes. -/
structure Candidate where
  title : String
  response : Except TransportError (List SourceClue)
  g : Nat → Nat

/-- The `while (categories.length < 6)` loop of `setupAndStart`: starting at
candidate index `i` with accumulated `categories`, fetch and filter
candidates until 6 categories are accepted.  `categoryResponse[i]` past the
end of the array is `undefined`, so the `.title` access throws a `TypeError`;
a rejected clue fetch propagates as a transport throw.  The result is the
final value of the global `categories` array together with the exception, if
any, that aborted the loop. -/
def buildLoop (cands : List Candidate) (i : Nat) (categories : List Category) :
    List Category × Option JsThrow :=
  if categories.length < 6 then
    if hi : i < cands.length then
      match cands[i].response with
      | .error e => (categories, some (.transport e))
      | .ok data =>
        match getCategory cands[i].g cands[i].title data with
        | some c => buildLoop cands (i + 1) (categories ++ [c])
        | none => buildLoop cands (i + 1) categories
    else (categories, some .typeError)
  else (categories, none)
termination_by cands.length - i
decreasing_by
  all_goals omega

/-- `setupAndStart` given the resolved-or-rejected `getCategoryIds(18)` call
and the current value of the global `categories` array (emptied beforehand by
`showLoadingView` in the start-button flow).  A rejected ids call propagates
out of the first `await`. -/
def setupAndStart (idsResponse : Except TransportError (List Candidate))
    (categories : List Category) : List Category × Option JsThrow :=
  match idsResponse with
  | .error e => (categories, some (.transport e))
  | .ok cands => buildLoop cands 0 categories

/-- The effect of `showLoadingView` on the board model: `categories = []`.
(The DOM wiping and spinner toggling have no counterpart in the model.) -/
def showLoadingView (categories : List Category) : List Category :=
  let _ := categories
  []

/-- The start-button click handler: `showLoadingView()` first (wiping the
prior board), then `await setupAndStart()`.  The result is the value of the
global `categories` array afterwards and the exception, if any, that escaped
the handler (in which case `hideLoadingView` never runs). -/
def startClickHandler (categories : List Category)
    (idsResponse : Except TransportError (List Candidate)) :
    List Category × Option JsThrow :=
  setupAndStart idsResponse (showLoadingView categories)

/-! ### Helper lemmas about the splice loop and `getCategory` -/

/-- Each splice removes an element already in the list, so the surviving
clues are a sublist (the source order minus the removals) of the fetched
data. -/
theorem reduceClues_sublist (g : Nat → Nat) : ∀ (k : Nat) (data : List SourceClue),
    List.Sublist (reduceClues g k data) data := by
  refine reduceClues.induct g (fun k data => List.Sublist (reduceClues g k data) data) ?_ ?_
  · intro k data h ih
    rw [reduceClues]
    simp only [h, dite_true]
    exact ih.trans (List.eraseIdx_sublist _ _)
  · intro k data h
    rw [reduceClues]
    simp [h]

/-- The splice loop stops exactly at 5 surviving clues whenever at least 5
were fetched. -/
theorem reduceClues_length_of_five_le (g : Nat → Nat) : ∀ (k : Nat) (data : List SourceClue),
    5 ≤ data.length → (reduceClues g k data).length = 5 := by
  refine reduceClues.induct g (fun k data => 5 ≤ data.length → (reduceClues g k data).length = 5)
    ?_ ?_
  · intro k data h ih _
    rw [reduceClues]
    simp only [h, dite_true]
    refine ih ?_
    have hlen : g k % data.length < data.length := Nat.mod_lt _ (by omega)
    rw [List.length_eraseIdx_of_lt hlen]
    omega
  · intro k data h hge
    rw [reduceClues]
    simp only [h, dite_false]
    omega

/-- With at most 5 fetched clues the splice loop is skipped entirely. -/
theorem reduceClues_eq_of_length_le (g : Nat → Nat) (k : Nat) (data : List SourceClue)
    (h : data.length ≤ 5) : reduceClues g k data = data := by
  rw [reduceClues]
  simp
  omega

/-- Reading `data[0] .. data[4]` out of a 5-element list is just a traversal
of the list; the `getD` default is never consulted. -/
theorem range_five_map_getD (l : List SourceClue) (hl : l.length = 5) (d : SourceClue) :
    ((List.range 5).map fun i => projectClue (l.getD i d)) = l.map projectClue := by
  match l, hl with
  | [a, b, c, e, f], _ => rfl

/-- `getCategory` returns its rejection value exactly on clue lists shorter
than 5. -/
theorem getCategory_eq_none_iff (g : Nat → Nat) (t : String) (data : List SourceClue) :
    getCategory g t data = none ↔ data.length < 5 := by
  unfold getCategory
  by_cases h : data.length < 5 <;> simp [h]

/-- On a clue list of length at least 5, `getCategory` accepts and its clue
array is the projection of the spliced-down survivor list. -/
theorem getCategory_of_five_le (g : Nat → Nat) (t : String) (data : List SourceClue)
    (h : 5 ≤ data.length) :
    getCategory g t data =
      some { title := t, clues := (reduceClues g 0 data).map projectClue } := by
  unfold getCategory
  have h5 : ¬ data.length < 5 := by omega
  simp only [h5, if_false]
  rw [range_five_map_getD _ (reduceClues_length_of_five_le g 0 data h)]

/-- Any category `getCategory` accepts carries exactly 5 clues. -/
theorem getCategory_clues_length (g : Nat → Nat) (t : String) (data : List SourceClue)
    (cat : Category) (h : getCategory g t data = some cat) : cat.clues.length = 5 := by
  by_cases hlen : data.length < 5
  · rw [(getCategory_eq_none_iff g t data).mpr hlen] at h
    simp at h
  · have := getCategory_of_five_le g t data (by omega)
    rw [this] at h
    cases h
    simp [reduceClues_length_of_five_le g 0 data (by omega)]

/-- Every clue of a category `getCategory` accepts is the projection of a
clue of the fetched data: question and answer are copied, the `showing`
state is the falsy initial one, and every other source field is dropped. -/
theorem getCategory_clue_mem (g : Nat → Nat) (t : String) (data : List SourceClue)
    (cat : Category) (h : getCategory g t data = some cat) :
    ∀ c ∈ cat.clues, ∃ s ∈ data,
      c = { question := s.question, answer := s.answer, showing := Showing.null } := by
  intro c hc
  by_cases hlen : data.length < 5
  · rw [(getCategory_eq_none_iff g t data).mpr hlen] at h
    simp at h
  · rw [getCategory_of_five_le g t data (by omega)] at h
    cases h
    simp only [List.mem_map] at hc
    obtain ⟨s, hs, rfl⟩ := hc
    exact ⟨s, (reduceClues_sublist g 0 data).subset hs, rfl⟩

/-! ### Helper lemmas about the acquisition loop -/

/-- When the acquisition loop finishes without throwing, the board has
exactly 6 categories and every invariant holding for the categories pushed
so far holds for the final board (each pushed category comes from an
accepting `getCategory` call). -/
theorem buildLoop_ok (cands : List Candidate) (P : Category → Prop)
    (hP : ∀ (cand : Candidate) (data : List SourceClue) (c : Category),
      cand.response = Except.ok data → getCategory cand.g cand.title data = some c → P c) :
    ∀ (i : Nat) (acc : List Category), acc.length ≤ 6 → (∀ c ∈ acc, P c) →
      ∀ b, buildLoop cands i acc = (b, none) → b.length = 6 ∧ ∀ c ∈ b, P c := by
  refine buildLoop.induct cands
    (fun i acc => acc.length ≤ 6 → (∀ c ∈ acc, P c) →
      ∀ b, buildLoop cands i acc = (b, none) → b.length = 6 ∧ ∀ c ∈ b, P c) ?_ ?_ ?_ ?_ ?_
  · intro i acc hlt hi e hresp _ _ b hb
    rw [buildLoop] at hb
    simp [hlt, hi, hresp] at hb
  · intro i acc hlt hi data hresp c hcat ih hle hall b hb
    rw [buildLoop] at hb
    simp only [hlt, if_true, hi, dite_true, hresp, hcat] at hb
    refine ih ?_ ?_ b hb
    · simp only [List.length_append, List.length_singleton]
      omega
    · intro c' hc'
      rcases List.mem_append.mp hc' with h | h
      · exact hall c' h
      · rcases List.mem_singleton.mp h with rfl
        exact hP cands[i] data c' hresp hcat
  · intro i acc hlt hi data hresp hcat ih hle hall b hb
    rw [buildLoop] at hb
    simp only [hlt, if_true, hi, dite_true, hresp, hcat] at hb
    exact ih hle hall b hb
  · intro i acc hlt hi _ _ b hb
    rw [buildLoop] at hb
    simp [hlt, hi] at hb
  · intro i acc hge hle hall b hb
    rw [buildLoop] at hb
    simp only [hge, if_false] at hb
    cases hb
    exact ⟨by omega, hall⟩

/-! ### Helper lemmas about `removeFirst` and strings -/

/-- Structure eta for strings: rebuilding a string from its character list
gives the string back. -/
theorem string_mk_data (s : String) : String.mk s.data = s := rfl

/-- `replace` leaves a string without the pattern unchanged. -/
theorem removeFirst_of_not_mem (c : Char) (l : List Char) (h : c ∉ l) :
    removeFirst c l = l := by
  induction l with
  | nil => rfl
  | cons x xs ih =>
      rw [List.mem_cons, not_or] at h
      rw [removeFirst, if_neg fun he => h.1 he.symm, ih h.2]

/-- `replace` with a string pattern removes exactly the first occurrence. -/
theorem removeFirst_append_cons (c : Char) (pre post : List Char) (h : c ∉ pre) :
    removeFirst c (pre ++ c :: post) = pre ++ post := by
  induction pre with
  | nil => simp [removeFirst]
  | cons x xs ih =>
      rw [List.mem_cons, not_or] at h
      rw [List.cons_append, removeFirst, if_neg fun he => h.1 he.symm, ih h.2,
        List.cons_append]

/-! ### Claim theorems: the reveal state machine -/

/-- C2: reveals on one clue are monotone and fully determined.  From the
falsy initial `showing` state, the first `handleClick` moves the clue to the
question state and emits the question text with the question style; the
second moves it to the answer state and emits the answer text (as processed
by the code's escape handling) with the emphasized style; every further call
on an answer-state clue is a no-op emitting no text and no style; and the
`showing` state never decreases under any call. -/
theorem reveal_monotone_sequence (c : Clue) (h : c.showing = Showing.null) :
    (handleClickClue c).1.showing = Showing.question ∧
    (handleClickClue c).2 = some (c.question, questionStyle) ∧
    (handleClickClue (handleClickClue c).1).1.showing = Showing.answer ∧
    (handleClickClue (handleClickClue c).1).2 =
      some (removeFirstBackslash c.answer, answerStyle) ∧
    (∀ d : Clue, d.showing = Showing.answer → handleClickClue d = (d, none)) ∧
    (∀ d : Clue, Showing.rank d.showing ≤ Showing.rank (handleClickClue d).1.showing) := by
  refine ⟨?_, ?_, ?_, ?_, ?_, ?_⟩
  · simp [handleClickClue, h]
  · simp [handleClickClue, h]
  · simp [handleClickClue, h]
  · simp [handleClickClue, h]
  · intro d hd
    simp [handleClickClue, hd]
  · intro d
    obtain ⟨q, a, s⟩ := d
    cases s <;> simp [handleClickClue, Showing.rank]

/-- Witness for C2 on the spec's scenario clue `{question: "2+2", answer:
"4"}`: the first reveal emits `("2+2", question style)` and the second
`("4", emphasized style)`. -/
theorem reveal_monotone_sequence_witness :
    (handleClickClue { question := "2+2", answer := "4", showing := Showing.null }).2 =
      some ("2+2", questionStyle) ∧
    (handleClickClue (handleClickClue
        { question := "2+2", answer := "4", showing := Showing.null }).1).2 =
      some ("4", answerStyle) := by
  have h := reveal_monotone_sequence
    { question := "2+2", answer := "4", showing := Showing.null } rfl
  exact ⟨h.2.1, h.2.2.2.1⟩

/-- C7 as stated is false: revealing the answer `a\b\c` removes only the
first backslash (`String.replace` with a plain string pattern replaces a
single occurrence), so a literal backslash survives in the emitted text. -/
theorem reveal_keeps_second_backslash :
    (handleClickClue ⟨"q", "a\\b\\c", Showing.question⟩).2 =
      some ("ab\\c", answerStyle) ∧
    ("ab\\c" : String) ≠ "abc" ∧ '\\' ∈ ("ab\\c" : String).data :=
  ⟨rfl, by decide, by decide⟩

/-- C7 amended: revealing a question-state clue emits the answer text with
only the first literal backslash, if any, stripped; an answer without a
backslash is emitted unchanged. -/
theorem reveal_strips_first_backslash (c : Clue) (h : c.showing = Showing.question) :
    ('\\' ∉ c.answer.data → (handleClickClue c).2 = some (c.answer, answerStyle)) ∧
    (∀ pre post : List Char, c.answer.data = pre ++ '\\' :: post → '\\' ∉ pre →
      (handleClickClue c).2 = some (String.mk (pre ++ post), answerStyle)) := by
  constructor
  · intro hn
    simp [handleClickClue, h, removeFirstBackslash,
      removeFirst_of_not_mem '\\' _ hn, string_mk_data]
  · intro pre post hsplit hpre
    simp [handleClickClue, h, removeFirstBackslash, hsplit,
      removeFirst_append_cons '\\' pre post hpre]

/-- Witness for the amended C7: the answer `a\b` is emitted as `ab`, and a
backslash-free answer is emitted unchanged. -/
theorem reveal_strips_first_backslash_witness :
    (handleClickClue ⟨"q", "a\\b", Showing.question⟩).2 = some ("ab", answerStyle) ∧
    (handleClickClue ⟨"q", "4", Showing.question⟩).2 = some ("4", answerStyle) := by
  have h1 := (reveal_strips_first_backslash ⟨"q", "a\\b", Showing.question⟩ rfl).2
    ['a'] ['b'] (by decide) (by decide)
  have h2 := (reveal_strips_first_backslash ⟨"q", "4", Showing.question⟩ rfl).1
    (by decide)
  exact ⟨by simpa using h1, h2⟩

/-- C9: a `(categoryIndex, clueIndex)` pair addresses an existing clue of the
board exactly when `handleClick` succeeds; every pair that does not address
an existing clue makes `handleClick` throw (the property access on the
`undefined` lookup result), with no other failure mode and no silent
mis-addressing. -/
theorem handleClick_range (categories : List Category) (cat clu : Nat) :
    (handleClick categories cat clu = Except.error JsThrow.typeError ↔
      ¬(cat < categories.length ∧
        clu < (categories.getD cat { title := "", clues := [] }).clues.length)) ∧
    ((∃ v, handleClick categories cat clu = Except.ok v) ↔
      cat < categories.length ∧
        clu < (categories.getD cat { title := "", clues := [] }).clues.length) := by
  cases hcat : categories[cat]? with
  | none =>
      have hlen : categories.length ≤ cat := by
        simpa using hcat
      have hrun : handleClick categories cat clu = Except.error JsThrow.typeError := by
        simp [handleClick, hcat]
      rw [hrun]
      constructor
      · simp only [true_iff]
        intro hc
        omega
      · simp only [false_iff, reduceCtorEq, exists_false]
        intro hc
        omega
  | some category =>
      have hlt : cat < categories.length := by
        by_contra hge
        rw [List.getElem?_eq_none (by omega)] at hcat
        exact Option.noConfusion hcat
      have hgetD : categories.getD cat { title := "", clues := [] } = category := by
        rw [List.getD_eq_getElem?_getD, hcat]
        rfl
      rw [hgetD]
      cases hclue : category.clues[clu]? with
      | none =>
          have hclen : category.clues.length ≤ clu := by
            simpa using hclue
          have hrun : handleClick categories cat clu = Except.error JsThrow.typeError := by
            simp [handleClick, hcat, hclue]
          rw [hrun]
          constructor
          · simp only [true_iff]
            intro hc
            omega
          · simp only [false_iff, reduceCtorEq, exists_false]
            intro hc
            omega
      | some clue =>
          have hclen : clu < category.clues.length := by
            by_contra hge
            rw [List.getElem?_eq_none (by omega)] at hclue
            exact Option.noConfusion hclue
          have hrun : handleClick categories cat clu =
              Except.ok (categories.set cat
                { title := category.title,
                  clues := category.clues.set clu (handleClickClue clue).1 },
                (handleClickClue clue).2) := by
            simp [handleClick, hcat, hclue]
          rw [hrun]
          constructor
          · simp only [reduceCtorEq, false_iff, not_not]
            exact ⟨hlt, hclen⟩
          · simp only [Except.ok.injEq, exists_eq', true_iff]
            exact ⟨hlt, hclen⟩

/-- Witness for C9: on the empty board the pair `(0, 0)` addresses nothing
and `handleClick` throws. -/
theorem handleClick_range_witness :
    handleClick [] 0 0 = Except.error JsThrow.typeError :=
  (handleClick_range [] 0 0).1.mpr (by simp)

/-! ### Concrete inputs used by the witnesses -/

/-- Three source clues: fewer than the 5 a category needs. -/
def wData3 : List SourceClue :=
  [⟨"q1", "a1", []⟩, ⟨"q2", "a2", []⟩, ⟨"q3", "a3", []⟩]

/-- Exactly five source clues. -/
def wData5 : List SourceClue :=
  [⟨"q1", "a1", []⟩, ⟨"q2", "a2", []⟩, ⟨"q3", "a3", []⟩, ⟨"q4", "a4", []⟩,
    ⟨"q5", "a5", []⟩]

/-- Eight source clues, more than the 5 a category keeps. -/
def wData8 : List SourceClue :=
  [⟨"q1", "a1", []⟩, ⟨"q2", "a2", []⟩, ⟨"q3", "a3", []⟩, ⟨"q4", "a4", []⟩,
    ⟨"q5", "a5", []⟩, ⟨"q6", "a6", []⟩, ⟨"q7", "a7", []⟩, ⟨"q8", "a8", []⟩]

/-- Five source clues carrying extra fields that the projection must drop. -/
def wDataExtra : List SourceClue :=
  [⟨"q1", "a1", [("value", "100"), ("airdate", "2001-01-01")]⟩,
    ⟨"q2", "a2", [("value", "200")]⟩, ⟨"q3", "a3", [("id", "7")]⟩,
    ⟨"q4", "a4", []⟩, ⟨"q5", "a5", [("category_id", "42")]⟩]

/-- An accepted candidate: its clue fetch resolves with exactly 5 clues. -/
def wCandOk : Candidate := ⟨"T", Except.ok wData5, fun _ => 0⟩

/-- A rejected candidate: its clue fetch resolves with only 3 clues. -/
def wCandRej : Candidate := ⟨"R", Except.ok wData3, fun _ => 0⟩

/-- Six accepted candidates: enough to fill a board. -/
def wCands6 : List Candidate := [wCandOk, wCandOk, wCandOk, wCandOk, wCandOk, wCandOk]

/-- Eighteen candidates, all rejected: the acquisition loop exhausts the
candidate array. -/
def wCands18 : List Candidate := List.replicate 18 wCandRej

/-- The category built from `wData5`. -/
def wCat5 : Category := { title := "T", clues := wData5.map projectClue }

/-- The board that six accepted `wData5` candidates produce. -/
def wBoard6 : List Category := [wCat5, wCat5, wCat5, wCat5, wCat5, wCat5]

/-- A nonempty board from an earlier successful game. -/
def wPrior : List Category :=
  [{ title := "Old", clues := [⟨"oq", "oa", Showing.answer⟩] }]

/-! ### Claim theorems: the acquisition pipeline -/

/-- C3: `getCategory` returns its rejection value (the source's
`return false`, not an exception and never a padded category) exactly when
the fetched clue list has fewer than 5 clues; any category it does return
has exactly 5 clues. -/
theorem getCategory_rejects_iff_short (g : Nat → Nat) (t : String) (data : List SourceClue) :
    (getCategory g t data = none ↔ data.length < 5) ∧
    (∀ cat, getCategory g t data = some cat → cat.clues.length = 5) :=
  ⟨getCategory_eq_none_iff g t data, fun cat h => getCategory_clues_length g t data cat h⟩

/-- Witness for C3: 3 fetched clues are rejected; 5 fetched clues yield a
5-clue category. -/
theorem getCategory_rejects_iff_short_witness :
    getCategory (fun _ => 0) "Science" wData3 = none ∧ wCat5.clues.length = 5 := by
  constructor
  · exact (getCategory_rejects_iff_short (fun _ => 0) "Science" wData3).1.mpr (by decide)
  · refine (getCategory_rejects_iff_short (fun _ => 0) "T" wData5).2 wCat5 ?_
    rw [getCategory_of_five_le (fun _ => 0) "T" wData5 (by decide),
      reduceClues_eq_of_length_le (fun _ => 0) 0 wData5 (by decide)]
    rfl

/-- C4: on more than 5 fetched clues, `getCategory` keeps exactly 5: the
survivors of the repeated uniform-random splice are a 5-element sublist of
the fetched list (each survivor is one of the source clues, in source order
minus the removals), and the returned category is exactly their projection.
The random draws are universally quantified through the oracle `g`, each
draw ranging over the indices of the remaining list. -/
theorem getCategory_five_random_subset (g : Nat → Nat) (t : String)
    (data : List SourceClue) (h : 5 < data.length) :
    List.Sublist (reduceClues g 0 data) data ∧
    (reduceClues g 0 data).length = 5 ∧
    getCategory g t data =
      some { title := t, clues := (reduceClues g 0 data).map projectClue } :=
  ⟨reduceClues_sublist g 0 data, reduceClues_length_of_five_le g 0 data h.le,
    getCategory_of_five_le g t data h.le⟩

/-- Witness for C4 at 8 fetched clues. -/
theorem getCategory_five_random_subset_witness :
    List.Sublist (reduceClues (fun _ => 0) 0 wData8) wData8 ∧
    (reduceClues (fun _ => 0) 0 wData8).length = 5 ∧
    getCategory (fun _ => 0) "Movies" wData8 =
      some { title := "Movies",
             clues := (reduceClues (fun _ => 0) 0 wData8).map projectClue } :=
  getCategory_five_random_subset (fun _ => 0) "Movies" wData8 (by decide)

/-- C8: every clue of a category returned by `getCategory` is exactly the
question and answer copied from one of the fetched source clues together
with the initial falsy `showing` state; the built clue object has no other
components, so all further source fields are discarded. -/
theorem getCategory_clue_fields (g : Nat → Nat) (t : String) (data : List SourceClue)
    (cat : Category) (h : getCategory g t data = some cat) :
    ∀ c ∈ cat.clues, ∃ s ∈ data,
      c = { question := s.question, answer := s.answer, showing := Showing.null } :=
  getCategory_clue_mem g t data cat h

/-- Witness for C8: the first clue of the category built from source clues
that carry extra fields is the bare projection of one of them. -/
theorem getCategory_clue_fields_witness :
    ∃ s ∈ wDataExtra,
      ({ question := "q1", answer := "a1", showing := Showing.null } : Clue) =
        { question := s.question, answer := s.answer, showing := Showing.null } := by
  refine getCategory_clue_fields (fun _ => 0) "History" wDataExtra
    { title := "History", clues := wDataExtra.map projectClue } ?_
    { question := "q1", answer := "a1", showing := Showing.null } (by decide)
  rw [getCategory_of_five_le (fun _ => 0) "History" wDataExtra (by decide),
    reduceClues_eq_of_length_le (fun _ => 0) 0 wDataExtra (by decide)]

/-- C10: the splice loop of `getCategory` terminates: while more than 5
clues remain, one iteration removes exactly one element (the length strictly
decreases), and the loop stops with exactly 5 clues; a list already at 5 or
fewer is returned unchanged. -/
theorem reduceClues_terminating (g : Nat → Nat) (k : Nat) (data : List SourceClue) :
    (5 < data.length →
      (data.eraseIdx (g k % data.length)).length = data.length - 1 ∧
      (data.eraseIdx (g k % data.length)).length < data.length) ∧
    (5 ≤ data.length → (reduceClues g k data).length = 5) ∧
    (data.length ≤ 5 → reduceClues g k data = data) := by
  refine ⟨?_, reduceClues_length_of_five_le g k data, reduceClues_eq_of_length_le g k data⟩
  intro h
  have hlen : g k % data.length < data.length := Nat.mod_lt _ (by omega)
  rw [List.length_eraseIdx_of_lt hlen]
  omega

/-- Witness for C10 at 8 clues. -/
theorem reduceClues_terminating_witness :
    (wData8.eraseIdx ((fun _ => 0) 0 % wData8.length)).length = wData8.length - 1 ∧
    (reduceClues (fun _ => 0) 0 wData8).length = 5 ∧
    reduceClues (fun _ => 0) 0 wData3 = wData3 := by
  have h8 := reduceClues_terminating (fun _ => 0) 0 wData8
  have h3 := reduceClues_terminating (fun _ => 0) 0 wData3
  exact ⟨(h8.1 (by decide)).1, h8.2.1 (by decide), h3.2.2 (by decide)⟩

/-- C1: whenever `setupAndStart`, run on the freshly wiped `categories`
array, finishes without throwing, the board it leaves behind has exactly 6
categories, each with exactly 5 clues. -/
theorem setupAndStart_board_shape (idsResponse : Except TransportError (List Candidate))
    (b : List Category) (h : setupAndStart idsResponse [] = (b, none)) :
    b.length = 6 ∧ ∀ c ∈ b, c.clues.length = 5 := by
  cases idsResponse with
  | error e => simp [setupAndStart] at h
  | ok cands =>
      exact buildLoop_ok cands (fun c => c.clues.length = 5)
        (fun cand data c _ hc => getCategory_clues_length cand.g cand.title data c hc)
        0 [] (by simp) (by simp) b h

/-- Witness for C1: six accepted candidates produce a 6-by-5 board. -/
theorem setupAndStart_board_shape_witness :
    wBoard6.length = 6 ∧ ∀ c ∈ wBoard6, c.clues.length = 5 := by
  refine setupAndStart_board_shape (Except.ok wCands6) wBoard6 ?_
  have hcat : getCategory (fun _ => 0) "T" wData5 = some wCat5 := by
    rw [getCategory_of_five_le (fun _ => 0) "T" wData5 (by decide),
      reduceClues_eq_of_length_le (fun _ => 0) 0 wData5 (by decide)]
    rfl
  simp [setupAndStart, buildLoop, wCands6, wCandOk, hcat, wBoard6]

/-- C5, evaluated at the failing input the spec flags: 18 candidates whose
clue fetches all return 3 clues, so every candidate is rejected.  The
acquisition loop runs `i` past the end of the candidate array and throws the
`TypeError` of the `categoryResponse[i].title` access on `undefined`; the
code has no InsufficientCategoriesError and does not stop before indexing
out of range. -/
theorem setupAndStart_exhaustion_throws :
    setupAndStart (Except.ok wCands18) [] = ([], some JsThrow.typeError) := by
  have hrej : getCategory (fun _ => 0) "R" wData3 = none :=
    (getCategory_eq_none_iff (fun _ => 0) "R" wData3).mpr (by decide)
  simp [setupAndStart, buildLoop, wCands18, wCandRej, hrej]

/-- C6 as stated is false at this input: the start handler wipes the prior
nonempty board via `showLoadingView` before the first remote call, so after
the `getCategoryIds` rejection the board is empty, not left unchanged. -/
theorem startClick_transport_wipes_prior :
    (startClickHandler wPrior (Except.error (TransportError.failure "netdown"))).1 = [] ∧
    (startClickHandler wPrior (Except.error (TransportError.failure "netdown"))).1 ≠
      wPrior ∧
    (startClickHandler wPrior (Except.error (TransportError.failure "netdown"))).2 =
      some (JsThrow.transport (TransportError.failure "netdown")) :=
  ⟨rfl, by decide, rfl⟩

/-- C6 amended: a game-start attempt never preserves the prior board.
`showLoadingView` empties the `categories` array before any remote call, so
a `TransportError` of the initial category-ids call leaves the board empty
(with the error propagating out of the handler), whatever the prior board
was. -/
theorem startClick_transport_board_empty (prior : List Category) (e : TransportError) :
    showLoadingView prior = [] ∧
    startClickHandler prior (Except.error e) = ([], some (JsThrow.transport e)) :=
  ⟨rfl, rfl⟩

end Jeopardy
